/- Formal model of `src/main.py` (Mercado Livre shipping-cost batch fetcher).

   The pure core (input normalization, fetch-outcome classification, batch
   coordination) is embedded shallowly: network effects are abstracted into an
   `HttpEvent` describing what the one HTTP call did, and the GUI text widget
   is abstracted into a list of structured `BatchEntry` values (one per line
   the loop would insert). -/
import Mathlib

namespace Frete

/-! ### Python string primitives used by the normalizers

`str.strip()` is modelled over the ASCII whitespace characters; the Python
original also strips rarer Unicode whitespace, which never carries any of the
character classes the normalizers keep. -/

/-- Whitespace test used by the model of Python `str.strip()`. -/
def isWs (c : Char) : Bool :=
  c == ' ' || c == '\t' || c == '\n' || c == '\r' || c == '\x0B' || c == '\x0C'

/-- Model of Python `str.strip()` on a character list: drop leading and
trailing whitespace. -/
def stripList (l : List Char) : List Char :=
  ((l.dropWhile isWs).reverse.dropWhile isWs).reverse

/-- Model of Python `str.strip()`. -/
def pyStrip (s : String) : String :=
  String.mk (stripList s.data)

/-! ### Input Normalizer (`normalize_ad_id`, `normalize_zip_code`) -/

/-- Character class of the regex `[MLB0-9]` (the complement of what
`re.sub(r"[^MLB0-9]", "", _)` deletes). -/
def inClass (c : Char) : Bool :=
  c == 'M' || c == 'L' || c == 'B' || c.isDigit

/-- `re.sub(r"[^MLB0-9]", "", _)`: keep only `M`, `L`, `B` and decimal
digits. -/
def keepMLBdigits (l : List Char) : List Char :=
  l.filter inClass

/-- `re.match(r"^MLB\d+$", _)` viewed as a Bool: the literal prefix `MLB`
followed by one or more decimal digits, to the end of the string.  (The input
fed to this test contains only `M`, `L`, `B` and digits, so the trailing
newline subtlety of Python's `$` cannot arise.) -/
def matchesMLBdigits (l : List Char) : Bool :=
  decide (l.take 3 = ['M', 'L', 'B']) && !(l.drop 3).isEmpty && (l.drop 3).all Char.isDigit

/-- `normalize_ad_id` from `src/main.py`: strip, delete every character
outside `[MLB0-9]`, prepend `MLB` unless the result already starts with it
(`startswith` is expressed as a take-3 comparison), then require a full match
of `^MLB\d+$`. -/
def normalize_ad_id (ad_id : String) : Option String :=
  let cleaned := keepMLBdigits (stripList ad_id.data)
  let cleaned2 := if cleaned.take 3 = ['M', 'L', 'B'] then cleaned
                  else 'M' :: 'L' :: 'B' :: cleaned
  if matchesMLBdigits cleaned2 then some (String.mk cleaned2) else none

/-- `normalize_zip_code` from `src/main.py`: strip, delete every non-digit,
keep the result only when it has exactly 8 characters and `isdigit()` holds. -/
def normalize_zip_code (zip_code : String) : Option String :=
  let cleaned := (stripList zip_code.data).filter Char.isDigit
  if cleaned.length = 8 && (!cleaned.isEmpty && cleaned.all Char.isDigit)
  then some (String.mk cleaned) else none

/-! ### A JSON value model and the Python dynamic operations the fetcher uses

`response.json()` can produce an arbitrary JSON value; the fetcher then runs
`"options" in data`, `len(data["options"])`, `data["options"][2]["list_cost"]`
and `float(_)` on it.  Each of those Python operations can raise, and the
surrounding `except` clauses dispatch on the exception class, so the
operations are modelled in an `Except PyExc` monad. -/

inductive Json where
  | null : Json
  | bool (b : Bool) : Json
  | num (q : ℚ) : Json
  | str (s : String) : Json
  | arr (elems : List Json) : Json
  | obj (kvs : List (String × Json)) : Json

/-- The Python exceptions the fetcher's operations can raise.  `valueError`
covers `float` conversion failures (and `json.JSONDecodeError` is a
`ValueError` as well); the remaining constructors land in the generic
`except Exception` clause. -/
inductive PyExc where
  | valueError (detail : String) : PyExc
  | typeError : PyExc
  | keyError (key : String) : PyExc
  | indexError : PyExc
deriving DecidableEq

/-- Dictionary lookup (JSON objects parse to Python dicts with unique keys,
so first-match lookup is exact). -/
def objGet : List (String × Json) → String → Option Json
  | [], _ => none
  | (k, v) :: rest, key => if k == key then some v else objGet rest key

/-- Does this JSON value equal the Python string `k`?  (Used for `in` on a
list: `"options" in data` compares `"options"` with each element.) -/
def jsonIsStr (k : String) : Json → Bool
  | .str s => s == k
  | _ => false

/-- Is `pat` a prefix of `l`? -/
def beginsWith : List Char → List Char → Bool
  | [], _ => true
  | _ :: _, [] => false
  | p :: ps, c :: cs => p == c && beginsWith ps cs

/-- Does `l` contain `pat` as a contiguous substring?  (Python `in` on
strings.) -/
def containsSub (pat : List Char) : List Char → Bool
  | [] => pat.isEmpty
  | c :: cs => beginsWith pat (c :: cs) || containsSub pat cs

/-- Python `key in data`: key membership on a dict, element membership on a
list, substring test on a string, `TypeError` otherwise. -/
def pyContains (key : String) : Json → Except PyExc Bool
  | .obj kvs => .ok (objGet kvs key).isSome
  | .arr xs => .ok (xs.any (jsonIsStr key))
  | .str s => .ok (containsSub key.data s.data)
  | _ => .error .typeError

/-- Python `data[key]` for a string `key`: dict lookup (`KeyError` when
missing); `TypeError` on every non-dict. -/
def pySubscriptKey (j : Json) (key : String) : Except PyExc Json :=
  match j with
  | .obj kvs =>
    match objGet kvs key with
    | some v => .ok v
    | none => .error (.keyError key)
  | _ => .error .typeError

/-- Python `len(_)`: defined on lists, dicts and strings, `TypeError`
otherwise. -/
def pyLen : Json → Except PyExc Nat
  | .arr xs => .ok xs.length
  | .obj kvs => .ok kvs.length
  | .str s => .ok s.length
  | _ => .error .typeError

/-- Python `data[i]` for a non-negative integer `i`: list/string indexing
(`IndexError` out of range); on a dict, an integer is simply an absent key
(JSON keys are strings), hence `KeyError`; `TypeError` otherwise. -/
def pyIndex (j : Json) (i : Nat) : Except PyExc Json :=
  match j with
  | .arr xs =>
    match xs[i]? with
    | some v => .ok v
    | none => .error .indexError
  | .str s =>
    match s.data[i]? with
    | some c => .ok (.str (String.mk [c]))
    | none => .error .indexError
  | .obj _ => .error (.keyError (toString i))
  | _ => .error .typeError

/-- Numeric value of a run of decimal digits. -/
def digitsVal (l : List Char) : Nat :=
  l.foldl (fun a c => a * 10 + (c.toNat - 48)) 0

/-- Model of Python `float(s)` on the plain decimal fragment
(optional sign, integer part, optional fractional part); scientific notation
and `inf`/`nan` spellings are outside the model.  `none` means `ValueError`. -/
def parseDecimal (s : String) : Option ℚ :=
  let t := stripList s.data
  let signed : Int × List Char :=
    match t with
    | '-' :: r => (-1, r)
    | '+' :: r => (1, r)
    | _ => (1, t)
  let ip := signed.2.takeWhile Char.isDigit
  let rest := signed.2.dropWhile Char.isDigit
  match rest with
  | [] => if ip.isEmpty then none else some (signed.1 * digitsVal ip)
  | '.' :: fp =>
    if fp.all Char.isDigit && !(ip.isEmpty && fp.isEmpty) then
      some (signed.1 * ((digitsVal ip : ℚ) + (digitsVal fp : ℚ) / ((10 : ℚ) ^ fp.length)))
    else none
  | _ => none

/-- Python `float(_)` on a JSON value: numbers pass through, booleans coerce
(`float(True) = 1.0`), numeric strings parse (`ValueError` otherwise), and
every other type raises `TypeError`. -/
def pyFloat : Json → Except PyExc ℚ
  | .num q => .ok q
  | .bool b => .ok (if b then 1 else 0)
  | .str s =>
    match parseDecimal s with
    | some q => .ok q
    | none => .error (.valueError ("could not convert string to float: " ++ s))
  | _ => .error .typeError

/-! ### Shipping Fetcher (`fetch_shipping_cost`)

The one network call is abstracted into an `HttpEvent`: either the connection
failed, or a response arrived (with its status and what reading the body as
JSON did), or some other exception class was raised.  `aiohttp`'s
`raise_for_status()` raises `ClientResponseError` exactly when the status is
at least 400; `ContentTypeError` (a `ClientResponseError` carrying the
response's own status) models `response.json()` on a non-JSON content type.
Where the Python messages interpolate `str(error)`, the model carries the
detail as a string argument. -/

/-- What reading the response body as JSON did. -/
inductive BodyOutcome where
  | json (data : Json) : BodyOutcome
  | invalidJson (detail : String) : BodyOutcome
  | wrongContentType : BodyOutcome

/-- The abstracted outcome of the single `session.get` call. -/
inductive HttpEvent where
  | connectionError : HttpEvent
  | response (status : Nat) (body : BodyOutcome) : HttpEvent
  | clientError (detail : String) : HttpEvent
  | otherError (detail : String) : HttpEvent

/-- The tuple `(ad_id, cost, error)` returned by `fetch_shipping_cost`. -/
structure FetchResult where
  ad_id : String
  cost : Option ℚ
  error : Option String
deriving DecidableEq

def no_options_msg : String := "No shipping options available"

def conn_error_msg : String :=
  "Could not connect to the server. Please check your internet connection and try again."

def server_error_msg : String :=
  "Server error (500). The Mercado Livre API is experiencing issues. Please try again later."

def not_found_msg : String :=
  "Item not found (404). Verify the ad ID and try again."

def rate_limited_msg : String :=
  "Too many requests (429). Please wait a few minutes and try again."

def http_error_msg (status : Nat) : String :=
  "Unexpected HTTP error (" ++ toString status ++ "). Contact the developer if this persists."

def client_error_msg (detail : String) : String :=
  "Client error: " ++ detail ++ ". Check your connection or contact the developer."

def invalid_response_msg (detail : String) : String :=
  "Invalid response: " ++ detail ++ ". The API returned unexpected data. Try again or contact the developer."

def unexpected_error_msg (detail : String) : String :=
  "Unexpected error: " ++ detail ++ ". Please contact the developer with this error message."

/-- The `str(error)` rendering of the modelled exceptions. -/
def excDetail : PyExc → String
  | .valueError d => d
  | .typeError => "TypeError"
  | .keyError k => "KeyError: " ++ k
  | .indexError => "list index out of range"

/-- The `except aiohttp.ClientResponseError` clause: dispatch on
`error.status`. -/
def clientResponseErrorMsg (status : Nat) : String :=
  if status = 500 then server_error_msg
  else if status = 404 then not_found_msg
  else if status = 429 then rate_limited_msg
  else http_error_msg status

/-- The success-path body handling of `fetch_shipping_cost`:
`if "options" in data and len(data["options"]) > 2:
   return ad_id, float(data["options"][2]["list_cost"]), None
 return ad_id, None, "No shipping options available"`,
with every Python operation allowed to raise. -/
def handle_success_body (data : Json) : Except PyExc (Option ℚ × Option String) :=
  match pyContains "options" data with
  | .error e => .error e
  | .ok false => .ok (none, some no_options_msg)
  | .ok true =>
    match pySubscriptKey data "options" with
    | .error e => .error e
    | .ok opts =>
      match pyLen opts with
      | .error e => .error e
      | .ok n =>
        if n > 2 then
          match pySubscriptKey data "options" with
          | .error e => .error e
          | .ok opts2 =>
            match pyIndex opts2 2 with
            | .error e => .error e
            | .ok elt =>
              match pySubscriptKey elt "list_cost" with
              | .error e => .error e
              | .ok lc =>
                match pyFloat lc with
                | .error e => .error e
                | .ok q => .ok (some q, none)
        else .ok (none, some no_options_msg)

/-- `fetch_shipping_cost` from `src/main.py`, over the abstracted HTTP event:
`raise_for_status()` raises for status ≥ 400, handled by the
`ClientResponseError` clause; otherwise the body is read as JSON and the
options array inspected, with exceptions from the body handling dispatched to
the `ValueError` and generic `Exception` clauses. -/
def fetch_shipping_cost (ad_id zip_code : String) (ev : HttpEvent) : FetchResult :=
  match ev with
  | .connectionError => ⟨ad_id, none, some conn_error_msg⟩
  | .clientError d => ⟨ad_id, none, some (client_error_msg d)⟩
  | .otherError d => ⟨ad_id, none, some (unexpected_error_msg d)⟩
  | .response status body =>
    if 400 ≤ status then ⟨ad_id, none, some (clientResponseErrorMsg status)⟩
    else
      match body with
      | .wrongContentType => ⟨ad_id, none, some (clientResponseErrorMsg status)⟩
      | .invalidJson d => ⟨ad_id, none, some (invalid_response_msg d)⟩
      | .json data =>
        match handle_success_body data with
        | .ok (c, e) => ⟨ad_id, c, e⟩
        | .error (.valueError d) => ⟨ad_id, none, some (invalid_response_msg d)⟩
        | .error e => ⟨ad_id, none, some (unexpected_error_msg (excDetail e))⟩

/-! ### Batch Coordinator (`process_ad_ids`)

`asyncio.gather` returns the fetch results in task-submission order, but the
reassembly loop reads them only through `result_dict`, so it is insensitive to
the order of the results list; `reassemble` therefore takes the results list
as a parameter, and `process_ad_ids` instantiates it with one simulated fetch
per task, `oracle` giving each request's `HttpEvent`.  The two
`result_text.insert` lines and the invalid-id warning become the constructors
of `BatchEntry`. -/

/-- `re.split(r"[,\n]", _)` on a character list: split at every comma or
newline, keeping empty pieces (they are filtered out after stripping, as in
the Python comprehension). -/
def splitOnDelims : List Char → List (List Char)
  | [] => [[]]
  | c :: cs =>
    if c == ',' || c == '\n' then [] :: splitOnDelims cs
    else
      match splitOnDelims cs with
      | [] => [[c]]
      | t :: ts => (c :: t) :: ts

/-- `re.split(r"[,\n]", _)`, then `.strip()` each piece, keeping the
non-empty ones. -/
def splitTokens (s : String) : List String :=
  (((splitOnDelims s.data).map stripList).filter (fun l => !l.isEmpty)).map String.mk

/-- `dict.fromkeys`: drop every token already seen, keeping first
occurrences in order. -/
def dedupFirstAux (seen : List String) : List String → List String
  | [] => []
  | x :: xs => if x ∈ seen then dedupFirstAux seen xs else x :: dedupFirstAux (x :: seen) xs

def dedupFirst (l : List String) : List String :=
  dedupFirstAux [] l

/-- `id_list` of `process_ad_ids`. -/
def id_list (blob : String) : List String :=
  dedupFirst (splitTokens blob)

/-- `normalized_ids`: each distinct raw token paired with its normalization. -/
def normalized_ids (blob : String) : List (String × Option String) :=
  (id_list blob).map (fun raw => (raw, normalize_ad_id raw))

/-- Python truthiness of an optional string (`if norm_id:`). -/
def pyTruthy : Option String → Bool
  | some s => !s.isEmpty
  | none => false

/-- `valid_ids`: the pairs whose normalization is truthy. -/
def valid_ids (blob : String) : List (String × Option String) :=
  (normalized_ids blob).filter (fun p => pyTruthy p.2)

/-- The canonical ids the coordinator creates fetch tasks for
(`tasks = [fetch_shipping_cost(session, norm_id, zip_code) for _, norm_id in valid_ids]`). -/
def fetch_targets (blob : String) : List String :=
  (valid_ids blob).filterMap (fun p => p.2)

/-- The value a raw token contributes to the task list: its normalization
when that is truthy, nothing otherwise (used to restate `fetch_targets`
per-token). -/
def normTruthy (raw : String) : Option String :=
  match normalize_ad_id raw with
  | some s => if s.isEmpty then none else some s
  | none => none

/-- The `asyncio.gather` results under a per-request oracle, in
task-submission order. -/
def intended_results (blob zip_code : String) (oracle : String → HttpEvent) : List FetchResult :=
  (fetch_targets blob).map (fun nid => fetch_shipping_cost nid zip_code (oracle nid))

/-- `result_dict = {ad_id: (cost, error) for ad_id, cost, error in results}`
then `.get(norm_id, (None, "Unknown error"))`: on duplicate ids the last
occurrence wins. -/
def result_lookup (results : List FetchResult) (k : String) : Option ℚ × Option String :=
  match results.reverse.find? (fun r => r.ad_id == k) with
  | some r => (r.cost, r.error)
  | none => (none, some "Unknown error")

/-- One line of the output loop: a fetched entry (the success and failure
`insert` lines, distinguished by `cost`) or the invalid-id line. -/
inductive BatchEntry where
  | fetched (norm_id : String) (cost : Option ℚ) (error : Option String) : BatchEntry
  | invalid (raw_id : String) : BatchEntry
deriving DecidableEq

/-- The identifier a `BatchEntry` displays. -/
def entryLabel : BatchEntry → String
  | .fetched nid _ _ => nid
  | .invalid raw => raw

/-- The final loop of `process_ad_ids`, with the gather results abstracted to
an arbitrary list: early return on an empty `id_list`, then one entry per
`normalized_ids` pair, looked up through `result_dict`. -/
def reassemble (blob : String) (results : List FetchResult) : List BatchEntry :=
  if (id_list blob).isEmpty then []
  else
    (normalized_ids blob).map (fun p =>
      match p.2 with
      | some nid =>
        if nid.isEmpty then BatchEntry.invalid p.1
        else BatchEntry.fetched nid (result_lookup results nid).1 (result_lookup results nid).2
      | none => BatchEntry.invalid p.1)

/-- `process_ad_ids` from `src/main.py` under a deterministic per-request
oracle. -/
def process_ad_ids (blob zip_code : String) (oracle : String → HttpEvent) : List BatchEntry :=
  reassemble blob (intended_results blob zip_code oracle)

/-! ### Shared lemmas -/

theorem not_ws_of_isDigit (c : Char) (h : c.isDigit = true) : isWs c = false := by
  unfold Char.isDigit at h
  rw [Bool.and_eq_true, decide_eq_true_iff, decide_eq_true_iff] at h
  cases hw : isWs c
  · rfl
  · exfalso
    unfold isWs at hw
    simp only [Bool.or_eq_true, beq_iff_eq] at hw
    rcases hw with ((((rfl | rfl) | rfl) | rfl) | rfl) | rfl <;> exact absurd h (by decide)

theorem dropWhile_eq_self_of (p : Char → Bool) (l : List Char)
    (h : ∀ c ∈ l, p c = false) : l.dropWhile p = l := by
  cases l with
  | nil => rfl
  | cons a t => simp [List.dropWhile_cons, h a (by simp)]

theorem stripList_of_no_ws (l : List Char) (h : ∀ c ∈ l, isWs c = false) :
    stripList l = l := by
  unfold stripList
  rw [dropWhile_eq_self_of _ _ h, dropWhile_eq_self_of, List.reverse_reverse]
  intro c hc
  exact h c (by simpa using hc)

theorem matches_shape (l : List Char) (h : matchesMLBdigits l = true) :
    l = 'M' :: 'L' :: 'B' :: l.drop 3 ∧ l.drop 3 ≠ [] ∧ (l.drop 3).all Char.isDigit = true := by
  unfold matchesMLBdigits at h
  rw [Bool.and_eq_true, Bool.and_eq_true, decide_eq_true_iff] at h
  obtain ⟨⟨h1, h2⟩, h3⟩ := h
  refine ⟨?_, by simpa using h2, h3⟩
  conv_lhs => rw [← List.take_append_drop 3 l]
  rw [h1]
  rfl

theorem string_mk_data (s : String) : String.mk s.data = s := by
  cases s
  rfl

/-! ### Claims about the Input Normalizer -/

/-- C8: `normalize_ad_id` is idempotent on its successes: whenever
`normalize_ad_id x = some y`, normalizing `y` again returns `some y`. -/
theorem c8_normalize_ad_id_idempotent (x y : String)
    (h : normalize_ad_id x = some y) : normalize_ad_id y = some y := by
  have hshape : matchesMLBdigits y.data = true := by
    simp only [normalize_ad_id] at h
    split at h
    · split at h
      · obtain rfl := Option.some.inj h
        assumption
      · exact absurd h (by simp)
    · split at h
      · obtain rfl := Option.some.inj h
        assumption
      · exact absurd h (by simp)
  obtain ⟨hy, hne, hdig⟩ := matches_shape y.data hshape
  have hdig' : ∀ c ∈ y.data.drop 3, c.isDigit = true := by
    intro c hc
    exact List.all_eq_true.mp hdig c hc
  have hnows : ∀ c ∈ y.data, isWs c = false := by
    intro c hc
    rw [hy] at hc
    rcases hc with _ | ⟨_, _ | ⟨_, _ | ⟨_, hc⟩⟩⟩
    · decide
    · decide
    · decide
    · exact not_ws_of_isDigit c (hdig' c hc)
  have hclass : ∀ c ∈ y.data, inClass c = true := by
    intro c hc
    rw [hy] at hc
    rcases hc with _ | ⟨_, _ | ⟨_, _ | ⟨_, hc⟩⟩⟩
    · decide
    · decide
    · decide
    · simp [inClass, hdig' c hc]
  simp only [normalize_ad_id]
  rw [stripList_of_no_ws _ hnows]
  unfold keepMLBdigits
  rw [List.filter_eq_self.mpr hclass]
  have htake : y.data.take 3 = ['M', 'L', 'B'] := by rw [hy]; rfl
  rw [if_pos htake, if_pos hshape, string_mk_data]

/-- C8 witness: `normalize_ad_id "7" = some "MLB7"`, and normalizing the
output again returns it unchanged. -/
theorem c8_normalize_ad_id_idempotent_witness : normalize_ad_id "MLB7" = some "MLB7" :=
  c8_normalize_ad_id_idempotent "7" "MLB7" (by decide)

/-- C9: whenever `normalize_zip_code` succeeds, the result is exactly 8
characters, all decimal digits; `"01.001-000"` normalizes to `"01001000"`
and the 7-digit `"0100100"` normalizes to `none`. -/
theorem c9_normalize_zip_code_shape :
    (∀ s z, normalize_zip_code s = some z →
      z.length = 8 ∧ z.data.all Char.isDigit = true) ∧
    normalize_zip_code "01.001-000" = some "01001000" ∧
    normalize_zip_code "0100100" = none := by
  refine ⟨?_, by decide, by decide⟩
  intro s z h
  simp only [normalize_zip_code] at h
  split at h
  · rename_i hcond
    obtain rfl : String.mk _ = z := by injection h
    simp only [Bool.and_eq_true, decide_eq_true_iff] at hcond
    exact ⟨hcond.1, hcond.2.2⟩
  · exact absurd h (by simp)

/-- C9 witness: the universal part applied to the concrete zip
`"01.001-000"`. -/
theorem c9_normalize_zip_code_shape_witness :
    ("01001000" : String).length = 8 ∧ ("01001000" : String).data.all Char.isDigit = true :=
  c9_normalize_zip_code_shape.1 "01.001-000" "01001000" (by decide)

/-! ### Claims about the Shipping Fetcher -/

/-- C1: on a 2xx response whose JSON object body maps `"options"` to an
array: with at most 2 elements the outcome is the no-options failure; with an
element at index 2 carrying a convertible `list_cost`, the outcome is success
with that numeric value. -/
theorem c1_options_selection (ad_id zip_code : String) (status : Nat)
    (kvs : List (String × Json)) (opts : List Json)
    (h2xx : 200 ≤ status ∧ status ≤ 299)
    (hopt : objGet kvs "options" = some (Json.arr opts)) :
    (opts.length ≤ 2 →
      fetch_shipping_cost ad_id zip_code (.response status (.json (.obj kvs))) =
        ⟨ad_id, none, some no_options_msg⟩) ∧
    (∀ ekvs lc q, opts[2]? = some (Json.obj ekvs) →
      objGet ekvs "list_cost" = some lc → pyFloat lc = .ok q →
      fetch_shipping_cost ad_id zip_code (.response status (.json (.obj kvs))) =
        ⟨ad_id, some q, none⟩) := by
  have h400 : ¬ 400 ≤ status := by omega
  constructor
  · intro hle
    have hngt : ¬ opts.length > 2 := by omega
    have hbody : handle_success_body (Json.obj kvs) = .ok (none, some no_options_msg) := by
      simp only [handle_success_body, pyContains, pySubscriptKey, pyLen, hopt,
        Option.isSome_some, gt_iff_lt, hngt, if_false]
    simp only [fetch_shipping_cost, h400, if_false, hbody]
  · intro ekvs lc q h2elt hlc hq
    have hgt : 2 < opts.length := by
      obtain ⟨hlt, _⟩ := List.getElem?_eq_some_iff.mp h2elt
      exact hlt
    have hbody : handle_success_body (Json.obj kvs) = .ok (some q, none) := by
      simp only [handle_success_body, pyContains, pySubscriptKey, pyLen, pyIndex, hopt,
        Option.isSome_some, gt_iff_lt, hgt, if_true, h2elt, hlc, hq]
    simp only [fetch_shipping_cost, h400, if_false, hbody]

/-- C1 witness: a 200 response with a 3-element options array whose third
element has `list_cost` 5 yields success with cost 5. -/
theorem c1_options_selection_witness :
    fetch_shipping_cost "MLB1" "01001000"
      (.response 200 (.json (.obj [("options",
        Json.arr [Json.null, Json.null, Json.obj [("list_cost", Json.num 5)]])]))) =
      ⟨"MLB1", some 5, none⟩ :=
  (c1_options_selection "MLB1" "01001000" 200
      [("options", Json.arr [Json.null, Json.null, Json.obj [("list_cost", Json.num 5)]])]
      [Json.null, Json.null, Json.obj [("list_cost", Json.num 5)]]
      (by omega) rfl).2
    [("list_cost", Json.num 5)] (Json.num 5) 5 rfl rfl rfl

/-- C4 counterexample: status 304 is not 2xx, yet the fetcher does not
produce the unexpected-HTTP-error category for it — `raise_for_status` only
raises for status ≥ 400, so the 304 response falls through to the
body-handling path and here yields the no-options failure instead. -/
theorem c4_counterexample :
    fetch_shipping_cost "MLB1" "01001000" (.response 304 (.json (.obj []))) =
      ⟨"MLB1", none, some no_options_msg⟩ ∧
    no_options_msg ≠ http_error_msg 304 := by
  constructor
  · decide
  · decide

/-- C4 amended: 500, 404 and 429 map to their categories; every *other
status ≥ 400* maps to the unexpected-HTTP-error category carrying the status;
a non-2xx status *below* 400 is not raised as an HTTP error and is handled
exactly like a 200 response with the same body. -/
theorem c4_status_mapping (ad_id zip_code : String) (status : Nat)
    (body : BodyOutcome) (data : Json) :
    (fetch_shipping_cost ad_id zip_code (.response 500 body) =
      ⟨ad_id, none, some server_error_msg⟩) ∧
    (fetch_shipping_cost ad_id zip_code (.response 404 body) =
      ⟨ad_id, none, some not_found_msg⟩) ∧
    (fetch_shipping_cost ad_id zip_code (.response 429 body) =
      ⟨ad_id, none, some rate_limited_msg⟩) ∧
    (400 ≤ status → status ≠ 500 → status ≠ 404 → status ≠ 429 →
      fetch_shipping_cost ad_id zip_code (.response status body) =
        ⟨ad_id, none, some (http_error_msg status)⟩) ∧
    (status < 400 →
      fetch_shipping_cost ad_id zip_code (.response status (.json data)) =
        fetch_shipping_cost ad_id zip_code (.response 200 (.json data))) := by
  refine ⟨?_, ?_, ?_, ?_, ?_⟩
  · simp [fetch_shipping_cost, clientResponseErrorMsg]
  · simp [fetch_shipping_cost, clientResponseErrorMsg]
  · simp [fetch_shipping_cost, clientResponseErrorMsg]
  · intro h400 h500 h404 h429
    simp [fetch_shipping_cost, h400, clientResponseErrorMsg, h500, h404, h429]
  · intro hlt
    have h400 : ¬ 400 ≤ status := by omega
    simp only [fetch_shipping_cost, h400, if_false]
    norm_num

/-- C4 witness: the amended mapping applied at status 418 (unexpected-HTTP
category) and at status 304 (fall-through to the 200 path). -/
theorem c4_status_mapping_witness :
    fetch_shipping_cost "MLB1" "01001000" (.response 418 (.json (.obj []))) =
      ⟨"MLB1", none, some (http_error_msg 418)⟩ ∧
    fetch_shipping_cost "MLB1" "01001000" (.response 304 (.json (.obj []))) =
      fetch_shipping_cost "MLB1" "01001000" (.response 200 (.json (.obj []))) :=
  ⟨(c4_status_mapping "MLB1" "01001000" 418 (.json (.obj [])) (.obj [])).2.2.2.1
      (by omega) (by omega) (by omega) (by omega),
   (c4_status_mapping "MLB1" "01001000" 304 (.json (.obj [])) (.obj [])).2.2.2.2
      (by omega)⟩

/-- Every run of `handle_success_body` is an exception, the no-options
failure, or a success pair. -/
theorem handle_success_body_shape (data : Json) :
    (∃ e, handle_success_body data = .error e) ∨
    handle_success_body data = .ok (none, some no_options_msg) ∨
    (∃ q, handle_success_body data = .ok (some q, none)) := by
  unfold handle_success_body
  repeat' split
  all_goals
    first
      | exact Or.inl ⟨_, rfl⟩
      | exact Or.inr (Or.inl rfl)
      | exact Or.inr (Or.inr ⟨_, rfl⟩)

/-- C5: the fetcher is total over its error cases — for every abstracted
fetch event it returns exactly one result, echoing its `ad_id`, and that
result is either a success (a cost and no error) or a failure (no cost and a
human-readable error message); no exception escapes. -/
theorem c5_fetcher_total (ad_id zip_code : String) (ev : HttpEvent) :
    (fetch_shipping_cost ad_id zip_code ev).ad_id = ad_id ∧
    ((∃ q, (fetch_shipping_cost ad_id zip_code ev).cost = some q ∧
        (fetch_shipping_cost ad_id zip_code ev).error = none) ∨
     ((fetch_shipping_cost ad_id zip_code ev).cost = none ∧
        ∃ m, (fetch_shipping_cost ad_id zip_code ev).error = some m)) := by
  cases ev with
  | connectionError => exact ⟨rfl, Or.inr ⟨rfl, _, rfl⟩⟩
  | clientError d => exact ⟨rfl, Or.inr ⟨rfl, _, rfl⟩⟩
  | otherError d => exact ⟨rfl, Or.inr ⟨rfl, _, rfl⟩⟩
  | response status body =>
    by_cases h400 : 400 ≤ status
    · have hfe : fetch_shipping_cost ad_id zip_code (.response status body) =
          ⟨ad_id, none, some (clientResponseErrorMsg status)⟩ := by
        simp only [fetch_shipping_cost, if_pos h400]
      rw [hfe]
      exact ⟨rfl, Or.inr ⟨rfl, _, rfl⟩⟩
    · cases body with
      | wrongContentType =>
        have hfe : fetch_shipping_cost ad_id zip_code (.response status .wrongContentType) =
            ⟨ad_id, none, some (clientResponseErrorMsg status)⟩ := by
          simp only [fetch_shipping_cost, if_neg h400]
        rw [hfe]
        exact ⟨rfl, Or.inr ⟨rfl, _, rfl⟩⟩
      | invalidJson d =>
        have hfe : fetch_shipping_cost ad_id zip_code (.response status (.invalidJson d)) =
            ⟨ad_id, none, some (invalid_response_msg d)⟩ := by
          simp only [fetch_shipping_cost, if_neg h400]
        rw [hfe]
        exact ⟨rfl, Or.inr ⟨rfl, _, rfl⟩⟩
      | json data =>
        rcases handle_success_body_shape data with ⟨e, he⟩ | he | ⟨q, he⟩
        · cases e with
          | valueError d =>
            have hfe : fetch_shipping_cost ad_id zip_code (.response status (.json data)) =
                ⟨ad_id, none, some (invalid_response_msg d)⟩ := by
              simp only [fetch_shipping_cost, if_neg h400, he]
            rw [hfe]
            exact ⟨rfl, Or.inr ⟨rfl, _, rfl⟩⟩
          | typeError =>
            have hfe : fetch_shipping_cost ad_id zip_code (.response status (.json data)) =
                ⟨ad_id, none, some (unexpected_error_msg (excDetail .typeError))⟩ := by
              simp only [fetch_shipping_cost, if_neg h400, he]
            rw [hfe]
            exact ⟨rfl, Or.inr ⟨rfl, _, rfl⟩⟩
          | keyError k =>
            have hfe : fetch_shipping_cost ad_id zip_code (.response status (.json data)) =
                ⟨ad_id, none, some (unexpected_error_msg (excDetail (.keyError k)))⟩ := by
              simp only [fetch_shipping_cost, if_neg h400, he]
            rw [hfe]
            exact ⟨rfl, Or.inr ⟨rfl, _, rfl⟩⟩
          | indexError =>
            have hfe : fetch_shipping_cost ad_id zip_code (.response status (.json data)) =
                ⟨ad_id, none, some (unexpected_error_msg (excDetail .indexError))⟩ := by
              simp only [fetch_shipping_cost, if_neg h400, he]
            rw [hfe]
            exact ⟨rfl, Or.inr ⟨rfl, _, rfl⟩⟩
        · have hfe : fetch_shipping_cost ad_id zip_code (.response status (.json data)) =
              ⟨ad_id, none, some no_options_msg⟩ := by
            simp only [fetch_shipping_cost, if_neg h400, he]
          rw [hfe]
          exact ⟨rfl, Or.inr ⟨rfl, _, rfl⟩⟩
        · have hfe : fetch_shipping_cost ad_id zip_code (.response status (.json data)) =
              ⟨ad_id, some q, none⟩ := by
            simp only [fetch_shipping_cost, if_neg h400, he]
          rw [hfe]
          exact ⟨rfl, Or.inl ⟨q, rfl, rfl⟩⟩

/-- C10: a 2xx response whose JSON object body has no `"options"` key at all
yields the no-options failure (not the malformed-response category). -/
theorem c10_missing_options_key (ad_id zip_code : String) (status : Nat)
    (kvs : List (String × Json)) (h2xx : 200 ≤ status ∧ status ≤ 299)
    (hopt : objGet kvs "options" = none) :
    fetch_shipping_cost ad_id zip_code (.response status (.json (.obj kvs))) =
      ⟨ad_id, none, some no_options_msg⟩ := by
  have h400 : ¬ 400 ≤ status := by omega
  have hbody : handle_success_body (Json.obj kvs) = .ok (none, some no_options_msg) := by
    simp only [handle_success_body, pyContains, hopt, Option.isSome_none]
  simp only [fetch_shipping_cost, h400, if_false, hbody]

/-- C10 witness: a 200 response with the empty JSON object body. -/
theorem c10_missing_options_key_witness :
    fetch_shipping_cost "MLB1" "01001000" (.response 200 (.json (.obj []))) =
      ⟨"MLB1", none, some no_options_msg⟩ :=
  c10_missing_options_key "MLB1" "01001000" 200 [] (by omega) rfl

/-! ### Lemmas about deduplication and the batch pipeline -/

theorem mem_dedupFirstAux (seen l : List String) (x : String) :
    x ∈ dedupFirstAux seen l ↔ x ∈ l ∧ x ∉ seen := by
  induction l generalizing seen with
  | nil => simp [dedupFirstAux]
  | cons a t ih =>
    by_cases ha : a ∈ seen
    · rw [dedupFirstAux, if_pos ha, ih]
      constructor
      · rintro ⟨h1, h2⟩
        exact ⟨List.mem_cons_of_mem _ h1, h2⟩
      · rintro ⟨h1, h2⟩
        rcases List.mem_cons.mp h1 with rfl | h1
        · exact absurd ha h2
        · exact ⟨h1, h2⟩
    · rw [dedupFirstAux, if_neg ha, List.mem_cons, ih]
      constructor
      · rintro (rfl | ⟨h1, h2⟩)
        · exact ⟨List.mem_cons_self _ _, ha⟩
        · exact ⟨List.mem_cons_of_mem _ h1,
            fun hx => h2 (List.mem_cons_of_mem _ hx)⟩
      · rintro ⟨h1, h2⟩
        rcases List.mem_cons.mp h1 with rfl | h1
        · exact Or.inl rfl
        · by_cases hxa : x = a
          · exact Or.inl hxa
          · exact Or.inr ⟨h1, by simp [List.mem_cons, hxa, h2]⟩

theorem nodup_dedupFirstAux (seen l : List String) : (dedupFirstAux seen l).Nodup := by
  induction l generalizing seen with
  | nil => simp [dedupFirstAux]
  | cons a t ih =>
    rw [dedupFirstAux]
    split
    · exact ih seen
    · refine List.nodup_cons.mpr ⟨?_, ih (a :: seen)⟩
      intro hmem
      exact ((mem_dedupFirstAux _ _ _).mp hmem).2 (List.mem_cons_self a seen)

theorem dedupFirst_toFinset (l : List String) : (dedupFirst l).toFinset = l.toFinset := by
  ext x
  simp [dedupFirst, mem_dedupFirstAux]

theorem dedupFirst_length (l : List String) : (dedupFirst l).length = l.toFinset.card := by
  rw [← dedupFirst_toFinset]
  exact (List.toFinset_card_of_nodup (nodup_dedupFirstAux [] l)).symm

theorem reassemble_length (blob : String) (results : List FetchResult) :
    (reassemble blob results).length = (id_list blob).length := by
  unfold reassemble
  split
  · rename_i hemp
    rw [List.isEmpty_iff] at hemp
    simp [hemp]
  · simp [normalized_ids]

theorem fetch_targets_eq (blob : String) :
    fetch_targets blob = (id_list blob).filterMap normTruthy := by
  unfold fetch_targets valid_ids normalized_ids
  generalize id_list blob = l
  induction l with
  | nil => rfl
  | cons a t ih =>
    rcases hn : normalize_ad_id a with _ | s
    · simpa [List.filter_cons, List.filterMap_cons, normTruthy, pyTruthy, hn] using ih
    · cases he : s.isEmpty with
      | true =>
        simpa [List.filter_cons, List.filterMap_cons, normTruthy, pyTruthy, hn, he] using ih
      | false =>
        simpa [List.filter_cons, List.filterMap_cons, normTruthy, pyTruthy, hn, he] using ih

/-! ### Claims about the Batch Coordinator -/

/-- C2: for every blob and every gather-results list (hence regardless of
fetch completion order), the batch output has one entry per distinct
(trimmed, non-empty) raw token, labelled in first-occurrence order; in
particular `"MLB1,MLB1,MLB2"` yields exactly two entries, `MLB1` first then
`MLB2`. -/
theorem c2_dedup_and_order :
    (∀ (blob : String) (results : List FetchResult),
      (reassemble blob results).length = (splitTokens blob).toFinset.card ∧
      (reassemble blob results).map entryLabel = (id_list blob).map (fun raw =>
        match normalize_ad_id raw with
        | some nid => if nid.isEmpty then raw else nid
        | none => raw)) ∧
    (∀ (zip_code : String) (oracle : String → HttpEvent), ∃ c1 e1 c2 e2,
      process_ad_ids "MLB1,MLB1,MLB2" zip_code oracle =
        [BatchEntry.fetched "MLB1" c1 e1, BatchEntry.fetched "MLB2" c2 e2]) := by
  constructor
  · intro blob results
    constructor
    · rw [reassemble_length, id_list, dedupFirst_length]
    · unfold reassemble
      split
      · rename_i hemp
        rw [List.isEmpty_iff] at hemp
        simp [hemp]
      · rw [normalized_ids, List.map_map, List.map_map]
        apply List.map_congr_left
        intro raw _
        simp only [Function.comp]
        rcases hn : normalize_ad_id raw with _ | nid
        · simp [entryLabel, hn]
        · cases he : nid.isEmpty with
          | true => simp [entryLabel, hn, he]
          | false => simp [entryLabel, hn, he]
  · intro zip_code oracle
    refine ⟨(result_lookup (intended_results "MLB1,MLB1,MLB2" zip_code oracle) "MLB1").1,
      (result_lookup (intended_results "MLB1,MLB1,MLB2" zip_code oracle) "MLB1").2,
      (result_lookup (intended_results "MLB1,MLB1,MLB2" zip_code oracle) "MLB2").1,
      (result_lookup (intended_results "MLB1,MLB1,MLB2" zip_code oracle) "MLB2").2, ?_⟩
    have h2 : normalized_ids "MLB1,MLB1,MLB2" =
        [("MLB1", some "MLB1"), ("MLB2", some "MLB2")] := by decide
    have h1 : (id_list "MLB1,MLB1,MLB2").isEmpty = false := by decide
    unfold process_ad_ids reassemble
    rw [h1, h2]
    simp
    exact ⟨by decide, by decide⟩

/-- C3 counterexample: `normalize_ad_id "abc123"` is `some "MLB123"` — the
lowercase letters are deleted by the `[^MLB0-9]` class, nothing prepends them
— so `"abc123"` is fetched, not rejected with an invalid-input marker. -/
theorem c3_counterexample :
    normalize_ad_id "abc123" = some "MLB123" ∧
    fetch_targets "abc123" = ["MLB123"] ∧
    process_ad_ids "abc123" "01001000" (fun _ => HttpEvent.connectionError) =
      [BatchEntry.fetched "MLB123" none (some conn_error_msg)] := by
  refine ⟨by decide, by decide, by decide⟩

/-- C3 amended: `"abc123"` normalizes to `"MLB123"` (lowercase letters are
stripped, not kept) and is attempted exactly like `"123"`; an input whose
surviving characters break the `MLB`-prefix-plus-digits shape, such as
`"ABC123"` (which cleans to `"B123"` and prefixes to `"MLBB123"`), fails the
check and yields an invalid-input marker with no fetch attempted. -/
theorem c3_invalid_marker_for_unnormalizable :
    normalize_ad_id "abc123" = some "MLB123" ∧
    normalize_ad_id "123" = some "MLB123" ∧
    fetch_targets "abc123" = ["MLB123"] ∧
    fetch_targets "123" = ["MLB123"] ∧
    normalize_ad_id "ABC123" = none ∧
    fetch_targets "ABC123" = [] ∧
    reassemble "ABC123" [] = [BatchEntry.invalid "ABC123"] := by
  refine ⟨by decide, by decide, by decide, by decide, by decide, by decide, by decide⟩

/-- C6 counterexample: the distinct raw tokens `"1"` and `"MLB1"` both
normalize to the canonical id `"MLB1"`, and the blob `"1,MLB1"` submits two
fetch tasks for that one canonical id — deduplication happens on raw tokens,
before normalization, not on canonical identifiers. -/
theorem c6_counterexample :
    normalize_ad_id "1" = some "MLB1" ∧
    normalize_ad_id "MLB1" = some "MLB1" ∧
    ("1" : String) ≠ "MLB1" ∧
    fetch_targets "1,MLB1" = ["MLB1", "MLB1"] ∧
    (fetch_targets "1,MLB1").count "MLB1" = 2 := by
  refine ⟨by decide, by decide, by decide, by decide, by decide⟩

/-- C6 amended: the Fetcher is invoked at most once per distinct *raw* token
— the deduplicated token list has no duplicates, each distinct token
contributes at most one task (exactly one when its normalization is truthy),
and `gather` produces exactly one outcome per task.  Distinct raw tokens
normalizing to the same canonical id each keep their own fetch. -/
theorem c6_one_fetch_per_raw_token (blob zip_code : String)
    (oracle : String → HttpEvent) :
    (id_list blob).Nodup ∧
    fetch_targets blob = (id_list blob).filterMap normTruthy ∧
    (intended_results blob zip_code oracle).length = (fetch_targets blob).length := by
  exact ⟨nodup_dedupFirstAux [] (splitTokens blob), fetch_targets_eq blob,
    by simp [intended_results]⟩

/-- C7: a raw token that fails normalization gets an invalid-input marker at
its first-occurrence position, and every fetch task originates from some
*other* token whose normalization succeeded — no fetch is attempted for the
invalid token. -/
theorem c7_no_fetch_for_invalid (blob : String) (results : List FetchResult)
    (i : Nat) (h : i < (id_list blob).length)
    (hinv : normalize_ad_id ((id_list blob)[i]) = none) :
    (reassemble blob results)[i]? =
      some (BatchEntry.invalid ((id_list blob)[i])) ∧
    ∀ t ∈ fetch_targets blob, ∃ r, r ∈ id_list blob ∧
      r ≠ (id_list blob)[i] ∧ normalize_ad_id r = some t := by
  constructor
  · have hne : (id_list blob).isEmpty = false := by
      cases hl : id_list blob with
      | nil => rw [hl] at h; simp at h
      | cons a t => rfl
    unfold reassemble
    rw [hne]
    simp only [Bool.false_eq_true, if_false, normalized_ids, List.getElem?_map,
      List.getElem?_eq_getElem h, Option.map_some']
    simp [hinv]
  · intro t ht
    unfold fetch_targets valid_ids normalized_ids at ht
    rw [List.mem_filterMap] at ht
    obtain ⟨p, hp, hpt⟩ := ht
    rw [List.mem_filter] at hp
    obtain ⟨hpmem, hptruthy⟩ := hp
    rw [List.mem_map] at hpmem
    obtain ⟨r, hr, rfl⟩ := hpmem
    refine ⟨r, hr, ?_, hpt⟩
    intro hre
    rw [hre] at hpt
    rw [hinv] at hpt
    exact Option.noConfusion hpt

/-- C7 witness: in `"ABC123,MLB5"` the token `"ABC123"` fails normalization
and position 0 of the output is its invalid-input marker. -/
theorem c7_no_fetch_for_invalid_witness :
    (reassemble "ABC123,MLB5" [])[0]? = some (BatchEntry.invalid "ABC123") :=
  (c7_no_fetch_for_invalid "ABC123,MLB5" [] 0 (by decide) (by decide)).1

end Frete
